import Mathlib

/-!
Verification of the equal-inclination (Haidinger) interference engine
`EqualInclinationInterference` in `yanshe.py`, shallowly embedded over `ℝ`.

The engine holds six parameters; `_calculate_pattern` builds a
`resolution × resolution` grid of angular coordinates evenly spaced over
`[-incidence_angle_range, incidence_angle_range]` degrees, sets
`theta = sqrt (x^2 + y^2)` degrees, converts to radians, computes the phase
`delta = 4 * pi * refractive_index * thickness * cos theta_rad / wavelength`
and the intensity `intensity_max * (1 + cos delta)` elementwise.
The slider callback `update` copies all slider values into the engine fields
and recomputes the displayed image; `reset` puts every slider back to its
construction-time value (which fires `update` again); `animate` drives the
thickness by `100 + 4900 * (0.5 + 0.5 * sin (frame * 2 * pi / frames))`.
-/

namespace Yanshe

open Real

/-- The six parameters stored by `EqualInclinationInterference.__init__`. -/
structure Params where
  wavelength : ℝ
  refractive_index : ℝ
  thickness : ℝ
  incidence_angle_range : ℝ
  intensity_max : ℝ
  resolution : ℕ

/-- Entry `i` of `np.linspace lo hi n`: `lo + i * ((hi - lo) / (n - 1))`.
For `n = 1` the real division by zero yields `lo`, matching numpy's single
sample `[lo]`. -/
noncomputable def linspace (lo hi : ℝ) (n : ℕ) (i : ℕ) : ℝ :=
  lo + i * ((hi - lo) / ((n : ℝ) - 1))

/-- The intensity law of `_calculate_pattern` at one angular coordinate pair
`(x, y)` in degrees: `theta = sqrt (x^2 + y^2)` degrees, times `pi / 180` for
radians, phase `4 * pi * n * d * cos theta_rad / wavelength`, intensity
`intensity_max * (1 + cos delta)`. -/
noncomputable def intensityAtPoint (p : Params) (x y : ℝ) : ℝ :=
  p.intensity_max * (1 + Real.cos (4 * Real.pi * p.refractive_index * p.thickness *
    Real.cos (Real.sqrt (x ^ 2 + y ^ 2) * (Real.pi / 180)) / p.wavelength))

/-- Grid entry of `_calculate_pattern` at row `i`, column `j`: with
`X, Y = np.meshgrid(x, y)` one has `X[i][j] = x[j]` and `Y[i][j] = y[i]`. -/
noncomputable def intensityAt (p : Params) (i j : ℕ) : ℝ :=
  intensityAtPoint p
    (linspace (-p.incidence_angle_range) p.incidence_angle_range p.resolution j)
    (linspace (-p.incidence_angle_range) p.incidence_angle_range p.resolution i)

/-- `_calculate_pattern`: the `resolution × resolution` intensity field. -/
noncomputable def calculatePattern (p : Params) : List (List ℝ) :=
  (List.range p.resolution).map fun i =>
    (List.range p.resolution).map fun j => intensityAt p i j

/-- The specification's name `computeField()` for `_calculate_pattern`. -/
noncomputable def computeField (p : Params) : List (List ℝ) :=
  calculatePattern p

/-- Reference definition written from the specification text: two
length-`resolution` coordinate sequences evenly spaced over
`[-angleRange, +angleRange]` degrees, for each grid pair
`theta = sqrt (x^2 + y^2)` degrees converted to radians,
`delta = 4 * pi * refractiveIndex * thickness * cos theta_rad / wavelength`,
and `intensityMax * (1 + cos delta)` elementwise. -/
noncomputable def computeFieldSpec (p : Params) : List (List ℝ) :=
  let coord : ℕ → ℝ := fun i =>
    -p.incidence_angle_range +
      2 * p.incidence_angle_range * i / ((p.resolution : ℝ) - 1)
  (List.range p.resolution).map fun i =>
    (List.range p.resolution).map fun j =>
      let theta_rad := Real.sqrt (coord j ^ 2 + coord i ^ 2) * Real.pi / 180
      let delta := 4 * Real.pi * p.refractive_index * p.thickness *
        Real.cos theta_rad / p.wavelength
      p.intensity_max * (1 + Real.cos delta)

/-- The construction defaults of `EqualInclinationInterference.__init__`:
`wavelength = 632.8`, `refractive_index = 1`, `thickness = 1000`,
`incidence_angle_range = 30`, `intensity_max = 1`, `resolution = 500`. -/
noncomputable def defaultParams : Params :=
  ⟨632.8, 1, 1000, 30, 1, 500⟩

/-- At the point `x = 0`, `y = 0` the angle is zero, so the phase reduces to
`4 * pi * n * d / wavelength`. Shared evaluation lemma. -/
theorem intensityAtPoint_center (p : Params) :
    intensityAtPoint p 0 0 =
      p.intensity_max * (1 + Real.cos (4 * Real.pi * p.refractive_index *
        p.thickness / p.wavelength)) := by
  unfold intensityAtPoint
  norm_num

/-- The thickness schedule of `animate`:
`100 + 4900 * (0.5 + 0.5 * sin (frame * 2 * pi / frames))`. -/
noncomputable def animThickness (frames : ℕ) (frame : ℕ) : ℝ :=
  100 + 4900 * (0.5 + 0.5 * Real.sin ((frame : ℝ) * 2 * Real.pi / (frames : ℝ)))

/-- C4: at the center of the field, where `x = 0` and `y = 0`, `theta = 0`, so
the phase is `delta = 4 * pi * refractiveIndex * thickness / wavelength` and the
intensity is exactly `intensityMax * (1 + cos delta)`; this holds for every
parameter tuple (the formula does not mention the resolution, so in particular
for the default resolution 500). -/
theorem center_intensity_closed_form (p : Params) :
    intensityAtPoint p 0 0 =
      p.intensity_max * (1 + Real.cos (4 * Real.pi * p.refractive_index *
        p.thickness / p.wavelength)) :=
  intensityAtPoint_center p

/-- C5: holding wavelength, refractive index and angle range fixed, the center
intensity is periodic in the thickness with period
`wavelength / (2 * refractiveIndex)`. -/
theorem center_intensity_periodic (p : Params) (d : ℝ)
    (hw : p.wavelength ≠ 0) (hn : p.refractive_index ≠ 0) :
    intensityAtPoint
        { p with thickness := d + p.wavelength / (2 * p.refractive_index) } 0 0 =
      intensityAtPoint { p with thickness := d } 0 0 := by
  rw [intensityAtPoint_center, intensityAtPoint_center]
  have h : 4 * Real.pi * p.refractive_index *
      (d + p.wavelength / (2 * p.refractive_index)) / p.wavelength =
      4 * Real.pi * p.refractive_index * d / p.wavelength + 2 * Real.pi := by
    field_simp
    ring
  rw [h, Real.cos_add_two_pi]

/-- Witness for C5 at the construction defaults and `d = 1000`. -/
theorem center_intensity_periodic_witness :
    intensityAtPoint
        { defaultParams with thickness :=
            1000 + defaultParams.wavelength / (2 * defaultParams.refractive_index) } 0 0 =
      intensityAtPoint { defaultParams with thickness := 1000 } 0 0 :=
  center_intensity_periodic defaultParams 1000
    (by norm_num [defaultParams]) (by norm_num [defaultParams])

/-- C7: the animation thickness schedule stays within `[100, 5000]` for every
frame count and frame index, and for `frames = 30` one full period brings
`thickness 0 = thickness 30`. -/
theorem animThickness_bounds_and_period :
    (∀ frames frame : ℕ, 100 ≤ animThickness frames frame ∧
      animThickness frames frame ≤ 5000) ∧
    animThickness 30 0 = animThickness 30 30 := by
  constructor
  · intro frames frame
    have h1 := Real.neg_one_le_sin ((frame : ℝ) * 2 * Real.pi / (frames : ℝ))
    have h2 := Real.sin_le_one ((frame : ℝ) * 2 * Real.pi / (frames : ℝ))
    unfold animThickness
    constructor <;> nlinarith
  · unfold animThickness
    have h0 : ((0 : ℕ) : ℝ) * 2 * Real.pi / ((30 : ℕ) : ℝ) = 0 := by norm_num
    have h30 : ((30 : ℕ) : ℝ) * 2 * Real.pi / ((30 : ℕ) : ℝ) = 2 * Real.pi := by
      norm_num
      ring
    rw [h0, h30, Real.sin_zero, Real.sin_two_pi]

/-- C1: `computeField()` coincides with the reference definition transcribed
from the specification text, for every parameter tuple. -/
theorem computeField_eq_spec (p : Params) : computeField p = computeFieldSpec p := by
  unfold computeField calculatePattern computeFieldSpec
  refine List.map_congr_left fun i _ => ?_
  refine List.map_congr_left fun j _ => ?_
  unfold intensityAt intensityAtPoint linspace
  have hcoord : ∀ k : ℕ,
      -p.incidence_angle_range + (k : ℝ) *
        ((p.incidence_angle_range - -p.incidence_angle_range) /
          ((p.resolution : ℝ) - 1)) =
      -p.incidence_angle_range +
        2 * p.incidence_angle_range * (k : ℝ) / ((p.resolution : ℝ) - 1) :=
    fun k => by ring
  rw [hcoord, hcoord]
  have hrad : ∀ t : ℝ, t * (Real.pi / 180) = t * Real.pi / 180 := fun t => by ring
  rw [hrad]

/-- Elementwise bound: the intensity law always lands in
`[0, 2 * intensity_max]` when `intensity_max` is nonnegative. -/
theorem intensityAtPoint_mem (p : Params) (h : 0 ≤ p.intensity_max) (x y : ℝ) :
    0 ≤ intensityAtPoint p x y ∧ intensityAtPoint p x y ≤ 2 * p.intensity_max := by
  unfold intensityAtPoint
  have h1 := Real.neg_one_le_cos (4 * Real.pi * p.refractive_index * p.thickness *
    Real.cos (Real.sqrt (x ^ 2 + y ^ 2) * (Real.pi / 180)) / p.wavelength)
  have h2 := Real.cos_le_one (4 * Real.pi * p.refractive_index * p.thickness *
    Real.cos (Real.sqrt (x ^ 2 + y ^ 2) * (Real.pi / 180)) / p.wavelength)
  constructor <;> nlinarith

/-- C2: for every parameter tuple with nonnegative `intensityMax` (the
specification requires it positive), `computeField()` is a square
`resolution × resolution` array with every element in `[0, 2 * intensityMax]`. -/
theorem computeField_shape_and_range (p : Params) (h : 0 ≤ p.intensity_max) :
    (computeField p).length = p.resolution ∧
    ∀ row ∈ computeField p, row.length = p.resolution ∧
      ∀ v ∈ row, 0 ≤ v ∧ v ≤ 2 * p.intensity_max := by
  constructor
  · simp [computeField, calculatePattern]
  · intro row hrow
    unfold computeField calculatePattern at hrow
    simp only [List.mem_map, List.mem_range] at hrow
    obtain ⟨i, _, rfl⟩ := hrow
    constructor
    · simp
    · intro v hv
      simp only [List.mem_map, List.mem_range] at hv
      obtain ⟨j, _, rfl⟩ := hv
      exact intensityAtPoint_mem p h _ _

/-- Witness for C2 at the construction defaults. -/
theorem computeField_shape_and_range_witness :
    (computeField defaultParams).length = defaultParams.resolution ∧
    ∀ row ∈ computeField defaultParams, row.length = defaultParams.resolution ∧
      ∀ v ∈ row, 0 ≤ v ∧ v ≤ 2 * defaultParams.intensity_max :=
  computeField_shape_and_range defaultParams (by norm_num [defaultParams])

/-- Entry `(i, j)` of a field, with out-of-range access defaulting. -/
noncomputable def fieldEntry (F : List (List ℝ)) (i j : ℕ) : ℝ :=
  (F.getD i []).getD j 0

/-- Mapping over an index range and reading back an in-range entry. -/
theorem getD_map_range {α : Type} (f : ℕ → α) (n i : ℕ) (d : α) (h : i < n) :
    (List.map f (List.range n)).getD i d = f i := by
  rw [List.getD_eq_getElem?_getD, List.getElem?_map, List.getElem?_range h]
  simp

/-- In range, `fieldEntry` of `computeField` is the grid intensity law. -/
theorem fieldEntry_computeField (p : Params) (i j : ℕ)
    (hi : i < p.resolution) (hj : j < p.resolution) :
    fieldEntry (computeField p) i j = intensityAt p i j := by
  unfold fieldEntry computeField calculatePattern
  rw [getD_map_range _ _ _ _ hi, getD_map_range _ _ _ _ hj]

/-- Reflecting the index of `np.linspace (-a) a n` negates the coordinate
(for at least two samples). -/
theorem linspace_reflect (a : ℝ) (n j : ℕ) (hj : j < n) (hn : 2 ≤ n) :
    linspace (-a) a n (n - 1 - j) = -linspace (-a) a n j := by
  unfold linspace
  have hne : (n : ℝ) - 1 ≠ 0 := by
    have : (2 : ℝ) ≤ (n : ℝ) := by exact_mod_cast hn
    intro hcontra
    nlinarith
  have hcast : ((n - 1 - j : ℕ) : ℝ) = (n : ℝ) - 1 - (j : ℝ) := by
    have h1 : j ≤ n - 1 := by omega
    have h2 : 1 ≤ n := by omega
    push_cast [Nat.cast_sub h1, Nat.cast_sub h2]
    ring
  rw [hcast]
  field_simp
  ring

/-- The intensity law depends on `x` only through `x ^ 2`. -/
theorem intensityAtPoint_neg_left (p : Params) (x y : ℝ) :
    intensityAtPoint p (-x) y = intensityAtPoint p x y := by
  unfold intensityAtPoint
  rw [neg_pow, pow_succ]
  norm_num

/-- The intensity law depends on `y` only through `y ^ 2`. -/
theorem intensityAtPoint_neg_right (p : Params) (x y : ℝ) :
    intensityAtPoint p x (-y) = intensityAtPoint p x y := by
  unfold intensityAtPoint
  rw [neg_pow, pow_succ]
  norm_num

/-- Grid form of the column reflection. -/
theorem intensityAt_reflect_col (p : Params) (i j : ℕ) (hj : j < p.resolution) :
    intensityAt p i (p.resolution - 1 - j) = intensityAt p i j := by
  rcases Nat.lt_or_ge p.resolution 2 with h2 | h2
  · have hj0 : j = 0 := by omega
    have hr : p.resolution - 1 - j = 0 := by omega
    rw [hr, hj0]
  · unfold intensityAt
    rw [linspace_reflect p.incidence_angle_range p.resolution j hj h2,
      intensityAtPoint_neg_left]

/-- Grid form of the row reflection. -/
theorem intensityAt_reflect_row (p : Params) (i j : ℕ) (hi : i < p.resolution) :
    intensityAt p (p.resolution - 1 - i) j = intensityAt p i j := by
  rcases Nat.lt_or_ge p.resolution 2 with h2 | h2
  · have hi0 : i = 0 := by omega
    have hr : p.resolution - 1 - i = 0 := by omega
    rw [hr, hi0]
  · unfold intensityAt
    rw [linspace_reflect p.incidence_angle_range p.resolution i hi h2,
      intensityAtPoint_neg_right]

/-- C3: for all in-range indices, the field returned by `computeField()` is
invariant under the column reflection `x → -x` and, independently, under the
row reflection `y → -y`. -/
theorem computeField_reflection_symmetry (p : Params) (i j : ℕ)
    (hi : i < p.resolution) (hj : j < p.resolution) :
    fieldEntry (computeField p) i j =
      fieldEntry (computeField p) i (p.resolution - 1 - j) ∧
    fieldEntry (computeField p) i j =
      fieldEntry (computeField p) (p.resolution - 1 - i) j := by
  have hj' : p.resolution - 1 - j < p.resolution := by omega
  have hi' : p.resolution - 1 - i < p.resolution := by omega
  rw [fieldEntry_computeField p i j hi hj,
    fieldEntry_computeField p i _ hi hj',
    fieldEntry_computeField p _ j hi' hj,
    intensityAt_reflect_col p i j hj, intensityAt_reflect_row p i j hi]
  exact ⟨rfl, rfl⟩

/-- Witness for C3 at the construction defaults, `i = 2`, `j = 3`. -/
theorem computeField_reflection_symmetry_witness :
    fieldEntry (computeField defaultParams) 2 3 =
      fieldEntry (computeField defaultParams) 2 (defaultParams.resolution - 1 - 3) ∧
    fieldEntry (computeField defaultParams) 2 3 =
      fieldEntry (computeField defaultParams) (defaultParams.resolution - 1 - 2) 3 :=
  computeField_reflection_symmetry defaultParams 2 3
    (by norm_num [defaultParams]) (by norm_num [defaultParams])

/-- The four interactive parameters, as named by the specification. -/
inductive ParamName
  | wavelength
  | refractiveIndex
  | thickness
  | angleRange
deriving DecidableEq

/-- The four slider values (`slider_wavelength`, `slider_refractive`,
`slider_thickness`, `slider_angle`). -/
structure Sliders where
  wavelength : ℝ
  refractive : ℝ
  thickness : ℝ
  angle : ℝ

/-- Slider values mirroring the interactive fields of a parameter tuple. -/
def slidersOf (p : Params) : Sliders :=
  ⟨p.wavelength, p.refractive_index, p.thickness, p.incidence_angle_range⟩

/-- Setting one slider (`Slider.set_val` on the named slider). -/
def Sliders.set (s : Sliders) : ParamName → ℝ → Sliders
  | ParamName.wavelength, v => { s with wavelength := v }
  | ParamName.refractiveIndex, v => { s with refractive := v }
  | ParamName.thickness, v => { s with thickness := v }
  | ParamName.angleRange, v => { s with angle := v }

/-- Copying the slider values into the four interactive engine fields, as the
body of `update` does; `intensity_max` and `resolution` are untouched. -/
def applySliders (p : Params) (s : Sliders) : Params :=
  { p with
    wavelength := s.wavelength
    refractive_index := s.refractive
    thickness := s.thickness
    incidence_angle_range := s.angle }

/-- The engine state: current parameters, slider values, the sliders'
construction-time `valinit` values, and the displayed image array. -/
structure Engine where
  cur : Params
  sliders : Sliders
  valinit : Sliders
  img : List (List ℝ)

/-- Engine state right after `__init__`: sliders mirror the parameters, the
`valinit` of each slider is its construction value, and the image holds
`_calculate_pattern()`. -/
noncomputable def mkEngine (p : Params) : Engine :=
  ⟨p, slidersOf p, slidersOf p, calculatePattern p⟩

/-- The `update` callback: copies all slider values into the engine fields and
recomputes the displayed image via `_calculate_pattern`. -/
noncomputable def Engine.update (e : Engine) : Engine :=
  { e with
    cur := applySliders e.cur e.sliders
    img := calculatePattern (applySliders e.cur e.sliders) }

/-- The specification's `setParameter(name, value)`: setting one slider, which
fires the `update` callback. -/
noncomputable def Engine.setParameter (e : Engine) (n : ParamName) (v : ℝ) : Engine :=
  Engine.update { e with sliders := e.sliders.set n v }

/-- The `reset` callback: every slider returns to its `valinit` value, each
`set_val` firing the `update` callback (idempotent, so one `update` suffices). -/
noncomputable def Engine.reset (e : Engine) : Engine :=
  Engine.update { e with sliders := e.valinit }

/-- Running a sequence of `setParameter` calls. -/
noncomputable def runSets (e : Engine) (ops : List (ParamName × ℝ)) : Engine :=
  ops.foldl (fun e nv => e.setParameter nv.1 nv.2) e

/-- The construction-time data that no `setParameter` call can change:
the sliders' `valinit` values, `intensity_max` and `resolution`. -/
def Preserved (p : Params) (e : Engine) : Prop :=
  e.valinit = slidersOf p ∧ e.cur.intensity_max = p.intensity_max ∧
    e.cur.resolution = p.resolution

theorem preserved_setParameter (p : Params) (e : Engine) (n : ParamName) (v : ℝ)
    (h : Preserved p e) : Preserved p (e.setParameter n v) := by
  obtain ⟨h1, h2, h3⟩ := h
  exact ⟨h1, h2, h3⟩

theorem preserved_runSets (p : Params) (e : Engine) (ops : List (ParamName × ℝ))
    (h : Preserved p e) : Preserved p (runSets e ops) := by
  induction ops generalizing e with
  | nil => exact h
  | cons nv rest ih => exact ih _ (preserved_setParameter p e nv.1 nv.2 h)

theorem applySliders_slidersOf (q p : Params)
    (h2 : q.intensity_max = p.intensity_max) (h3 : q.resolution = p.resolution) :
    applySliders q (slidersOf p) = p := by
  cases q
  cases p
  simp_all [applySliders, slidersOf]

/-- C6: after any sequence of `setParameter` calls, `reset()` restores all four
interactive parameters to their construction-time values, and `computeField()`
after the reset returns the very field produced right after construction. -/
theorem reset_restores (p : Params) (ops : List (ParamName × ℝ)) :
    (Engine.reset (runSets (mkEngine p) ops)).cur = p ∧
    computeField (Engine.reset (runSets (mkEngine p) ops)).cur =
      computeField (mkEngine p).cur := by
  have hpres : Preserved p (runSets (mkEngine p) ops) :=
    preserved_runSets p (mkEngine p) ops ⟨rfl, rfl, rfl⟩
  obtain ⟨h1, h2, h3⟩ := hpres
  have hcur : (Engine.reset (runSets (mkEngine p) ops)).cur = p := by
    show applySliders (runSets (mkEngine p) ops).cur
      (runSets (mkEngine p) ops).valinit = p
    rw [h1]
    exact applySliders_slidersOf _ p h2 h3
  exact ⟨hcur, by rw [hcur]; rfl⟩

/-- Reading one interactive parameter of a tuple by name. -/
def Params.interactive (p : Params) : ParamName → ℝ
  | ParamName.wavelength => p.wavelength
  | ParamName.refractiveIndex => p.refractive_index
  | ParamName.thickness => p.thickness
  | ParamName.angleRange => p.incidence_angle_range

/-- C10: `computeField()` is deterministic: two engine states agreeing on all
six parameters yield elementwise-equal fields (and the embedded computation is
a pure function of the parameters, so neither call mutates them). -/
theorem computeField_deterministic (p q : Params)
    (h1 : p.wavelength = q.wavelength)
    (h2 : p.refractive_index = q.refractive_index)
    (h3 : p.thickness = q.thickness)
    (h4 : p.incidence_angle_range = q.incidence_angle_range)
    (h5 : p.intensity_max = q.intensity_max)
    (h6 : p.resolution = q.resolution) :
    computeField p = computeField q := by
  have hpq : p = q := by
    cases p
    cases q
    simp_all
  rw [hpq]

/-- Witness for C10 at the construction defaults. -/
theorem computeField_deterministic_witness :
    computeField defaultParams = computeField defaultParams :=
  computeField_deterministic defaultParams defaultParams rfl rfl rfl rfl rfl rfl

/-- C8 amended: with the sliders mirroring the engine fields (which holds in
every reachable state), `setParameter` changes exactly the named interactive
parameter, leaves the other three and `intensity_max` and `resolution`
unchanged, and recomputes the displayed field from the new parameters. -/
theorem setParameter_effect (e : Engine) (n : ParamName) (v : ℝ)
    (hs : e.sliders = slidersOf e.cur) :
    (e.setParameter n v).cur.interactive n = v ∧
    (∀ m, m ≠ n → (e.setParameter n v).cur.interactive m = e.cur.interactive m) ∧
    (e.setParameter n v).cur.intensity_max = e.cur.intensity_max ∧
    (e.setParameter n v).cur.resolution = e.cur.resolution ∧
    (e.setParameter n v).img = computeField (e.setParameter n v).cur := by
  obtain ⟨cur, sl, vi, im⟩ := e
  simp only at hs
  subst hs
  refine ⟨?_, ?_, rfl, rfl, rfl⟩
  · cases n <;> rfl
  · intro m hmn
    cases n <;> cases m <;> first
      | rfl
      | exact absurd rfl hmn

/-- Witness for C8 amended: construction defaults, setting the thickness. -/
theorem setParameter_effect_witness :
    ((mkEngine defaultParams).setParameter ParamName.thickness 2000).cur.interactive
        ParamName.thickness = 2000 ∧
    (∀ m, m ≠ ParamName.thickness →
      ((mkEngine defaultParams).setParameter ParamName.thickness 2000).cur.interactive m =
        (mkEngine defaultParams).cur.interactive m) ∧
    ((mkEngine defaultParams).setParameter ParamName.thickness 2000).cur.intensity_max =
      (mkEngine defaultParams).cur.intensity_max ∧
    ((mkEngine defaultParams).setParameter ParamName.thickness 2000).cur.resolution =
      (mkEngine defaultParams).cur.resolution ∧
    ((mkEngine defaultParams).setParameter ParamName.thickness 2000).img =
      computeField ((mkEngine defaultParams).setParameter ParamName.thickness 2000).cur :=
  setParameter_effect (mkEngine defaultParams) ParamName.thickness 2000 rfl

/-- A degenerate but unvalidated parameter tuple (the engine performs no
validation): `wavelength = 4`, `refractive_index = 1`, `thickness = 1`,
`incidence_angle_range = 0`, `intensity_max = 1`, `resolution = 1`. Its single
sample sits at `theta = 0` with phase `pi`, so the field is `[[0]]`. -/
noncomputable def pC8 : Params :=
  ⟨4, 1, 1, 0, 1, 1⟩

/-- `pC8` after setting the thickness to `2`: phase `2 * pi`, field `[[2]]`. -/
noncomputable def pC8after : Params :=
  ⟨4, 1, 2, 0, 1, 1⟩

theorem calculatePattern_res_one (p : Params) (h : p.resolution = 1) :
    calculatePattern p = [[intensityAt p 0 0]] := by
  unfold calculatePattern
  rw [h]
  rfl

theorem intensityAt_pC8_val : intensityAt pC8 0 0 = 0 := by
  unfold intensityAt intensityAtPoint linspace pC8
  norm_num

theorem intensityAt_pC8after_val : intensityAt pC8after 0 0 = 2 := by
  unfold intensityAt intensityAtPoint linspace pC8after
  norm_num
  have h : 4 * Real.pi * 2 / 4 = 2 * Real.pi := by ring
  rw [h, Real.cos_two_pi]
  norm_num

/-- Counterexample to C8 as stated: `setParameter` does trigger recomputation
of the (displayed) field — setting the thickness of the `pC8` engine from `1`
to `2` replaces the image `[[0]]` by the freshly computed `[[2]]`. -/
theorem setParameter_recomputes_counterexample :
    ((mkEngine pC8).setParameter ParamName.thickness 2).img ≠ (mkEngine pC8).img := by
  have h1 : ((mkEngine pC8).setParameter ParamName.thickness 2).img =
      calculatePattern pC8after := rfl
  have h2 : (mkEngine pC8).img = calculatePattern pC8 := rfl
  rw [h1, h2, calculatePattern_res_one pC8 rfl, calculatePattern_res_one pC8after rfl,
    intensityAt_pC8_val, intensityAt_pC8after_val]
  simp

/-- Shared evaluation for C9: at the construction defaults the center intensity
is `1 + cos (254 * pi / 791)` (the phase `5000 * pi / 791` reduced by three full
turns). -/
theorem center_intensity_default :
    intensityAtPoint defaultParams 0 0 = 1 + Real.cos (254 * Real.pi / 791) := by
  rw [intensityAtPoint_center]
  show (1 : ℝ) * (1 + Real.cos (4 * Real.pi * 1 * 1000 / 632.8)) = _
  have h1 : (4 : ℝ) * Real.pi * 1 * 1000 / 632.8 = 5000 * Real.pi / 791 := by
    rw [div_eq_div_iff (by norm_num) (by norm_num)]
    ring_nf
  have h2 : (5000 : ℝ) * Real.pi / 791 =
      254 * Real.pi / 791 + 2 * Real.pi + 2 * Real.pi + 2 * Real.pi := by
    ring
  rw [h1, h2, Real.cos_add_two_pi, Real.cos_add_two_pi, Real.cos_add_two_pi]
  ring

theorem cos_turn_le : Real.cos (254 * Real.pi / 791) ≤ Real.sqrt 2 / 2 := by
  have h := Real.cos_le_cos_of_nonneg_of_le_pi
    (by positivity : (0 : ℝ) ≤ Real.pi / 4)
    (by nlinarith [Real.pi_pos] : 254 * Real.pi / 791 ≤ Real.pi)
    (by nlinarith [Real.pi_pos] : Real.pi / 4 ≤ 254 * Real.pi / 791)
  rwa [Real.cos_pi_div_four] at h

theorem le_cos_turn : (1 : ℝ) / 2 ≤ Real.cos (254 * Real.pi / 791) := by
  have h := Real.cos_le_cos_of_nonneg_of_le_pi
    (by positivity : (0 : ℝ) ≤ 254 * Real.pi / 791)
    (by nlinarith [Real.pi_pos] : Real.pi / 3 ≤ Real.pi)
    (by nlinarith [Real.pi_pos] : 254 * Real.pi / 791 ≤ Real.pi / 3)
  rwa [Real.cos_pi_div_three] at h

theorem sqrt_two_le : Real.sqrt 2 ≤ 1.415 := by
  nlinarith [Real.sq_sqrt (by norm_num : (0 : ℝ) ≤ 2), Real.sqrt_nonneg 2]

/-- Counterexample to C9 as stated: at the defaults the center intensity is
below `1.7075`, so it is not within `0.1` of the claimed `1.9825` (the true
value is `≈ 1.5329`). -/
theorem center_value_counterexample :
    ¬ |intensityAtPoint defaultParams 0 0 - 1.9825| ≤ 1 / 10 := by
  rw [center_intensity_default, abs_le]
  push_neg
  intro h
  exfalso
  nlinarith [cos_turn_le, sqrt_two_le]

/-- C9 amended: with `wavelength = 632.8`, `refractiveIndex = 1`,
`thickness = 1000`, `intensityMax = 1`, at `theta = 0` the phase is
`delta = 4 * pi * 1000 / 632.8 ≈ 19.8584` radians (not `19.8557`), and the
intensity `1 + cos delta` lies between `1.5` and `1.7075` (it is `≈ 1.5329`,
not `≈ 1.9825`). -/
theorem center_value_amended :
    |4 * Real.pi * defaultParams.refractive_index * defaultParams.thickness /
        defaultParams.wavelength - 19.8584| < 1 / 1000 ∧
    1.5 ≤ intensityAtPoint defaultParams 0 0 ∧
    intensityAtPoint defaultParams 0 0 ≤ 1.7075 := by
  refine ⟨?_, ?_, ?_⟩
  · show |(4 : ℝ) * Real.pi * 1 * 1000 / 632.8 - 19.8584| < 1 / 1000
    have harg : (4 : ℝ) * Real.pi * 1 * 1000 / 632.8 = 5000 * Real.pi / 791 := by
      rw [div_eq_div_iff (by norm_num) (by norm_num)]
      ring_nf
    rw [harg, abs_lt]
    constructor <;> nlinarith [Real.pi_gt_d6, Real.pi_lt_d6]
  · rw [center_intensity_default]
    nlinarith [le_cos_turn]
  · rw [center_intensity_default]
    nlinarith [cos_turn_le, sqrt_two_le]

end Yanshe
